import Mathlib

/-!
# Verification of the Iris dashboard filter/summarize pipeline

Shallow embedding of the core logic of `src/app.py`, a Streamlit dashboard
over the Iris dataset.  The relevant lines of the source are:

* `df['species'] = pd.Categorical.from_codes(iris.target, iris.target_names)`
  — the species column is a pandas Categorical with the three fixed
  categories `setosa`, `versicolor`, `virginica`.
* `filtered = df[df['species'].isin(selected_species)]` (line 90) — the
  filter: a boolean mask keeping rows whose species is a member of the
  multiselect value, in the original row order.
* `filtered.sepal_length.mean()` / `filtered.petal_length.mean()`
  (lines 98–99) — per-field means; pandas returns NaN for the mean of an
  empty series.
* `filtered.describe()` (line 179) — pandas descriptive statistics:
  count, mean, std (sample, ddof = 1, NaN when the count is ≤ 1), min,
  25%/50%/75% percentiles (linear interpolation between closest ranks), max.
* `filtered['species'].value_counts()` (line 181) — counts per species;
  on a Categorical column every category appears, with count 0 when absent.

Measurements are embedded as rationals (the arithmetic involved — sums,
divisions, linear interpolation — is exact over the rationals);
pandas floats that can be NaN are embedded as the two-constructor type
`PFloat` below.
-/

/-- One flower measurement row: four numeric features and a species label,
as in the dataframe built at `src/app.py` lines 14–17. -/
structure Record where
  sepal_length : ℚ
  sepal_width : ℚ
  petal_length : ℚ
  petal_width : ℚ
  species : String
deriving DecidableEq, Repr

/-- The fixed species categories of the Iris dataset
(`iris.target_names`, in order). -/
def speciesList : List String := ["setosa", "versicolor", "virginica"]

/-- The four measurement field identifiers, the keys of `feature_name_map`
at `src/app.py` lines 20–25 (the dataframe column names after the rename
on line 17). -/
def featureKeys : List String :=
  ["sepal_length", "sepal_width", "petal_length", "petal_width"]

/-- The human-readable feature names, the values of `feature_name_map`
in insertion order (`readable_features`, line 27). -/
def readableFeatures : List String :=
  ["Sepal Length (cm)", "Sepal Width (cm)", "Petal Length (cm)", "Petal Width (cm)"]

/-- `readable_to_original` (line 28): maps a readable feature name back to
the dataframe column name. -/
def readable_to_original (s : String) : String :=
  if s = "Sepal Length (cm)" then "sepal_length"
  else if s = "Sepal Width (cm)" then "sepal_width"
  else if s = "Petal Length (cm)" then "petal_length"
  else "petal_width"

/-- A measurement field, as an enumeration of the four dataframe columns. -/
inductive IrisField where
  | sepal_length
  | sepal_width
  | petal_length
  | petal_width
deriving DecidableEq, Repr

/-- Value of a field in a record. -/
def fieldVal (r : Record) : IrisField → ℚ
  | IrisField.sepal_length => r.sepal_length
  | IrisField.sepal_width => r.sepal_width
  | IrisField.petal_length => r.petal_length
  | IrisField.petal_width => r.petal_width

/-- The current sidebar selection of `src/app.py` lines 77–88: the species
multiselect, and the two feature selectboxes (`x_feature`, `y_feature`,
already translated through `readable_to_original`).  The feature pair does
not take part in the row filter. -/
structure ConstraintSet where
  selectedSpecies : List String
  xFeature : String
  yFeature : String
deriving DecidableEq, Repr

/-- The row filter of `src/app.py` line 90:
`filtered = df[df['species'].isin(selected_species)]` — keep, in original
order, the rows whose species is a member of the selection.  `isin` with a
value that matches no row (e.g. an unknown species) contributes no matches
and raises no error. -/
def filterRecords (dataset : List Record) (selectedSpecies : List String) :
    List Record :=
  dataset.filter (fun r => decide (r.species ∈ selectedSpecies))

/-- The filter applied to a full `ConstraintSet` (only `selectedSpecies`
is consulted, exactly as on line 90 of the source). -/
def filterC (dataset : List Record) (c : ConstraintSet) : List Record :=
  filterRecords dataset c.selectedSpecies

/-- A pandas float that may be NaN: the result type of `Series.mean` and
of the `std` column of `describe`. -/
inductive PFloat where
  | val (q : ℚ)
  | NaN
deriving DecidableEq, Repr

/-- `Series.mean` (`src/app.py` lines 98–99): NaN on an empty series,
otherwise the arithmetic mean. -/
def seriesMean (xs : List ℚ) : PFloat :=
  if xs.isEmpty then PFloat.NaN else PFloat.val (xs.sum / xs.length)

/-- `value_counts` on the Categorical species column (`src/app.py`
line 181): one entry per category of the fixed species set, with the
number of rows carrying that species (0 when absent).  pandas orders the
entries by descending count; the summary treats the result as a mapping,
so the entries are listed here in category order. -/
def speciesCounts (records : List Record) : List (String × ℕ) :=
  speciesList.map (fun s => (s, (records.filter (fun r => r.species == s)).length))

/-- The summary values the dashboard derives from the filtered view:
row count (line 97), per-field mean (lines 98–99, extended to all four
fields by the same `Series.mean` call), and per-species counts
(line 181). -/
structure Summary where
  rowCount : ℕ
  meanByField : IrisField → PFloat
  countBySpecies : List (String × ℕ)

/-- Assemble the summary of a filtered view, from the operations at
`src/app.py` lines 96–99 and 181. -/
def summarize (records : List Record) : Summary :=
  { rowCount := records.length
    meanByField := fun f => seriesMean (records.map (fun r => fieldVal r f))
    countBySpecies := speciesCounts records }

/-- The linear-interpolation percentile used by `filtered.describe()`
(`src/app.py` line 179): on `n` sorted values and a percentile
`p ∈ [0, 1]`, the rank is `r = p * (n - 1)`; the result interpolates
between the value at index `⌊r⌋` and the next value, weighted by the
fractional part of `r` (when `r` is integral the weight is 0 and the
next-index default never matters). -/
def quantileSorted (vs : List ℚ) (p : ℚ) : ℚ :=
  let r : ℚ := p * ((vs.length : ℚ) - 1)
  let i : ℕ := ⌊r⌋₊
  let g : ℚ := r - (⌊r⌋₊ : ℚ)
  let lo := vs.getD i 0
  let hi := vs.getD (i + 1) lo
  lo + g * (hi - lo)

/-- pandas sample standard deviation (the `std` column of `describe`,
ddof = 1): NaN when there are fewer than two values.  For `n ≥ 2` the
standard deviation is the square root of the sample variance; the value
carried here is that variance (the square of the std), which keeps the
development in exact rational arithmetic — the std is defined
(respectively zero) exactly when the carried value is. -/
def sampleStdSq (xs : List ℚ) : PFloat :=
  if xs.length ≤ 1 then PFloat.NaN
  else PFloat.val
    ((xs.map (fun x => (x - xs.sum / (xs.length : ℚ)) ^ 2)).sum
      / ((xs.length : ℚ) - 1))

/-- A percentile of one field of the view: sort the column, then apply
the linear-interpolation percentile; NaN on an empty view.  `p = 0` is
the minimum and `p = 1` the maximum of `describe`. -/
def quartile (records : List Record) (f : IrisField) (p : ℚ) : PFloat :=
  let sorted := List.insertionSort (· ≤ ·) (records.map (fun r => fieldVal r f))
  if sorted.isEmpty then PFloat.NaN
  else PFloat.val (quantileSorted sorted p)

/-- One column of the `filtered.describe()` table (`src/app.py`
line 179): count, mean, std, min, the three quartiles, max. -/
structure FieldStats where
  count : ℕ
  mean : PFloat
  stdSq : PFloat
  minV : PFloat
  q25 : PFloat
  q50 : PFloat
  q75 : PFloat
  maxV : PFloat

/-- The descriptive statistics of one measurement field of the view, as
computed by `filtered.describe()`. -/
def describeField (records : List Record) (f : IrisField) : FieldStats :=
  let xs := records.map (fun r => fieldVal r f)
  { count := xs.length
    mean := seriesMean xs
    stdSq := sampleStdSq xs
    minV := quartile records f 0
    q25 := quartile records f (1/4)
    q50 := quartile records f (1/2)
    q75 := quartile records f (3/4)
    maxV := quartile records f 1 }

/-- A small concrete dataset (one record per species) used to instantiate
the theorems below on explicit inputs. -/
def recSetosa : Record :=
  { sepal_length := 5, sepal_width := 35/10, petal_length := 13/10,
    petal_width := 3/10, species := "setosa" }

/-- Second sample record, species versicolor. -/
def recVersicolor : Record :=
  { sepal_length := 7, sepal_width := 32/10, petal_length := 47/10,
    petal_width := 14/10, species := "versicolor" }

/-- Third sample record, species virginica. -/
def recVirginica : Record :=
  { sepal_length := 63/10, sepal_width := 33/10, petal_length := 6,
    petal_width := 25/10, species := "virginica" }

/-- Concrete three-record dataset respecting the dataset invariant. -/
def sampleDataset : List Record := [recSetosa, recVersicolor, recVirginica]

/-- Summing, over a duplicate-free key list containing `a`, the indicator
of equality with `a` gives exactly 1. -/
theorem sum_if_mem_one (keys : List String) (a : String) (hnd : keys.Nodup)
    (ha : a ∈ keys) :
    (keys.map (fun s => if a = s then (1 : ℕ) else 0)).sum = 1 := by
  induction keys with
  | nil => simp at ha
  | cons k ks ih =>
    rw [List.nodup_cons] at hnd
    rcases List.mem_cons.mp ha with rfl | hmem
    · have hz : (ks.map (fun s => if a = s then (1 : ℕ) else 0)).sum = 0 := by
        apply List.sum_eq_zero
        intro n hn
        obtain ⟨s, hs, rfl⟩ := List.mem_map.mp hn
        rw [if_neg]
        rintro rfl
        exact hnd.1 hs
      simp [hz]
    · have hne : a ≠ k := by
        rintro rfl
        exact hnd.1 hmem
      simp [hne, ih hnd.2 hmem]

/-- Per-key filtered lengths over a duplicate-free key list covering every
record's species sum to the number of records. -/
theorem counts_sum_eq_length (keys : List String) (records : List Record)
    (hnd : keys.Nodup) (hcov : ∀ r ∈ records, r.species ∈ keys) :
    (keys.map (fun s =>
      (records.filter (fun r => r.species == s)).length)).sum
      = records.length := by
  induction records with
  | nil => simp
  | cons r t ih =>
    have hr : r.species ∈ keys := hcov r (List.mem_cons_self r t)
    have ih2 := ih (fun x hx => hcov x (List.mem_cons_of_mem r hx))
    have hpt : (fun s => ((r :: t).filter (fun x => x.species == s)).length)
        = fun s => (if r.species = s then (1 : ℕ) else 0) +
            (t.filter (fun x => x.species == s)).length := by
      funext s
      by_cases h : r.species = s
      · simp [List.filter_cons, h, Nat.add_comm]
      · simp [List.filter_cons, h]
    rw [hpt, List.sum_map_add, sum_if_mem_one keys r.species hnd hr, ih2]
    simp [Nat.add_comm]

/-- C1: the filter is a stable, order-preserving subsequence selection:
for every dataset and every ConstraintSet, the records of
`filter(dataset, constraints)` form a subsequence of the dataset. -/
theorem filterC_sublist (dataset : List Record) (c : ConstraintSet) :
    (filterC dataset c).Sublist dataset :=
  List.filter_sublist dataset

/-- C5: an empty `selectedSpecies` produces an empty record sequence,
for every dataset — a normal outcome, not an error. -/
theorem filterC_empty_species (dataset : List Record) (c : ConstraintSet)
    (h : c.selectedSpecies = []) : filterC dataset c = [] := by
  simp [filterC, filterRecords, h]

/-- Witness for C5 at a concrete dataset and constraint. -/
theorem filterC_empty_species_witness :
    filterC [{ sepal_length := 5, sepal_width := 3, petal_length := 1,
               petal_width := 0, species := "setosa" }]
      { selectedSpecies := [], xFeature := "sepal_length",
        yFeature := "petal_length" } = [] :=
  filterC_empty_species _ _ rfl

/-- C6: when `selectedSpecies` is the full species set (and, as everywhere
in this source file, no numeric range constraint exists), the filter is
the identity on any dataset satisfying the dataset invariant (every
record's species belongs to the fixed species set). -/
theorem filterC_full_species_identity (dataset : List Record)
    (c : ConstraintSet) (hinv : ∀ r ∈ dataset, r.species ∈ speciesList)
    (hc : c.selectedSpecies = speciesList) : filterC dataset c = dataset := by
  unfold filterC filterRecords
  rw [hc]
  exact List.filter_eq_self.mpr fun r hr => decide_eq_true (hinv r hr)

/-- Witness for C6 on the concrete three-record dataset. -/
theorem filterC_full_species_identity_witness :
    filterC sampleDataset
      { selectedSpecies := speciesList, xFeature := "sepal_length",
        yFeature := "petal_length" } = sampleDataset :=
  filterC_full_species_identity _ _ (by decide) rfl

/-- C9: the feature-pair selection never affects which rows are in the
filtered view — two constraint sets agreeing on `selectedSpecies` produce
identical record sequences, whatever their feature pairs. -/
theorem filterC_featurePair_noninterference (dataset : List Record)
    (c₁ c₂ : ConstraintSet)
    (h : c₁.selectedSpecies = c₂.selectedSpecies) :
    filterC dataset c₁ = filterC dataset c₂ := by
  unfold filterC
  rw [h]

/-- Witness for C9: two constraints with the same species selection and
different feature pairs give the same filtered records. -/
theorem filterC_featurePair_noninterference_witness :
    filterC sampleDataset
      { selectedSpecies := ["setosa", "virginica"],
        xFeature := "sepal_length", yFeature := "petal_length" }
    = filterC sampleDataset
      { selectedSpecies := ["setosa", "virginica"],
        xFeature := "petal_width", yFeature := "petal_width" } :=
  filterC_featurePair_noninterference _ _ _ rfl

/-- C4 counterexample: a species value not among the three known species
does not make the filter fail — it is silently ignored.  With the unknown
value `"unicorn"` in the selection the filter returns the same normal
(non-error) result as without it, refuting "fails with an InvalidArgument
condition ... never silently coerces or ignores the malformed value". -/
theorem filterRecords_unknown_species_silently_ignored :
    "unicorn" ∉ speciesList ∧
    filterRecords sampleDataset ["setosa", "unicorn"]
      = filterRecords sampleDataset ["setosa"] ∧
    filterRecords sampleDataset ["setosa", "unicorn"] = [recSetosa] := by
  refine ⟨by decide, ?_, ?_⟩ <;> rfl

/-- C4 amended: the filter performs no input validation.  Species values
outside the known species set are silently ignored: on any dataset
satisfying the dataset invariant, filtering by a selection equals
filtering by the selection restricted to known species, and no error
condition exists. -/
theorem filterRecords_ignores_unknown_species (dataset : List Record)
    (sel : List String) (hinv : ∀ r ∈ dataset, r.species ∈ speciesList) :
    filterRecords dataset sel
      = filterRecords dataset
          (sel.filter (fun s => decide (s ∈ speciesList))) := by
  unfold filterRecords
  apply List.filter_congr
  intro r hr
  simp [List.mem_filter, hinv r hr]

/-- Witness for the amended C4 at a concrete dataset and selection. -/
theorem filterRecords_ignores_unknown_species_witness :
    filterRecords sampleDataset ["virginica", "unicorn"]
      = filterRecords sampleDataset
          (["virginica", "unicorn"].filter
            (fun s => decide (s ∈ speciesList))) :=
  filterRecords_ignores_unknown_species _ _ (by decide)

/-- On any record list satisfying the dataset invariant, `countBySpecies`
has an entry for every species of the fixed species set — whose count is
0 exactly when the species is absent — and the counts sum to
`rowCount`. -/
theorem summarize_counts_of_inv (records : List Record)
    (hinv : ∀ r ∈ records, r.species ∈ speciesList) :
    (∀ s ∈ speciesList, ∃ n, (s, n) ∈ (summarize records).countBySpecies ∧
        (n = 0 ↔ ∀ r ∈ records, r.species ≠ s)) ∧
    ((summarize records).countBySpecies.map Prod.snd).sum
      = (summarize records).rowCount := by
  constructor
  · intro s hs
    refine ⟨(records.filter (fun r => r.species == s)).length,
      List.mem_map.mpr ⟨s, hs, rfl⟩, ?_⟩
    rw [List.length_eq_zero, List.filter_eq_nil_iff]
    simp
  · simp only [summarize, speciesCounts, List.map_map]
    simpa [Function.comp] using
      counts_sum_eq_length speciesList records (by decide) hinv

/-- C2: for every dataset satisfying the dataset invariant and every
ConstraintSet, summarizing the filtered view yields a `countBySpecies`
with an entry for every species of the fixed three-member species set —
with count 0 exactly when the species is absent from the view — whose
values sum to the view's `rowCount`. -/
theorem summarize_filter_counts_complete_and_sum (dataset : List Record)
    (c : ConstraintSet) (hinv : ∀ r ∈ dataset, r.species ∈ speciesList) :
    (∀ s ∈ speciesList, ∃ n,
        (s, n) ∈ (summarize (filterC dataset c)).countBySpecies ∧
        (n = 0 ↔ ∀ r ∈ filterC dataset c, r.species ≠ s)) ∧
    ((summarize (filterC dataset c)).countBySpecies.map Prod.snd).sum
      = (summarize (filterC dataset c)).rowCount :=
  summarize_counts_of_inv (filterC dataset c)
    (fun r hr => hinv r ((List.filter_sublist dataset).subset hr))

/-- Witness for C2 on the concrete three-record dataset with a two-species
selection. -/
theorem summarize_filter_counts_complete_and_sum_witness :
    ((summarize (filterC sampleDataset
        { selectedSpecies := ["setosa", "virginica"],
          xFeature := "sepal_length",
          yFeature := "petal_length" })).countBySpecies.map Prod.snd).sum
      = (summarize (filterC sampleDataset
        { selectedSpecies := ["setosa", "virginica"],
          xFeature := "sepal_length",
          yFeature := "petal_length" })).rowCount :=
  (summarize_filter_counts_complete_and_sum sampleDataset
    { selectedSpecies := ["setosa", "virginica"],
      xFeature := "sepal_length", yFeature := "petal_length" }
    (by decide)).2

/-- C3 counterexample: the claim "every entry of
`summarize(view).meanByField` on an empty view is explicitly undefined —
not a NaN default" is false: the code computes `Series.mean` on the empty
filtered column, which yields NaN (displayed as `nan cm` by the metric
format string), not an explicit undefined marker. -/
theorem summarize_empty_mean_not_NaN_counterexample :
    ¬ (∀ records : List Record, (summarize records).rowCount = 0 →
        ∀ f, (summarize records).meanByField f ≠ PFloat.NaN) := by
  intro h
  exact h [] rfl IrisField.sepal_length rfl

/-- C3 amended: on a view with `rowCount = 0`, every entry of
`meanByField` is NaN — the library default for the mean of an empty
series — not zero and not an explicit undefined marker. -/
theorem summarize_empty_mean_is_NaN (records : List Record)
    (h : (summarize records).rowCount = 0) :
    ∀ f, (summarize records).meanByField f = PFloat.NaN := by
  intro f
  have hnil : records = [] := List.length_eq_zero.mp h
  subst hnil
  rfl

/-- Witness for the amended C3 on the empty view. -/
theorem summarize_empty_mean_is_NaN_witness :
    (summarize []).meanByField IrisField.petal_width = PFloat.NaN :=
  summarize_empty_mean_is_NaN [] rfl IrisField.petal_width

/-- C7: on every sorted nonempty value list and percentile `p ∈ [0, 1]`,
the percentile equals the linear interpolation between the values at
indices `⌊r⌋` and `⌈r⌉`, with `r = p * (n - 1)`, weighted by the
fractional part of `r`; and on `[1, 2, 3, 4]` with `p = 1/2` the result
is exactly `5/2`. -/
theorem quantileSorted_closest_ranks :
    (∀ (vs : List ℚ) (p : ℚ), vs.Sorted (· ≤ ·) → vs ≠ [] →
      0 ≤ p → p ≤ 1 →
      quantileSorted vs p
        = vs.getD ⌊p * ((vs.length : ℚ) - 1)⌋₊ 0
          + (p * ((vs.length : ℚ) - 1) - (⌊p * ((vs.length : ℚ) - 1)⌋₊ : ℚ))
            * (vs.getD ⌈p * ((vs.length : ℚ) - 1)⌉₊ 0
               - vs.getD ⌊p * ((vs.length : ℚ) - 1)⌋₊ 0)) ∧
    quantileSorted [1, 2, 3, 4] (1/2) = 5/2 := by
  constructor
  · intro vs p _hsort hne hp0 hp1
    have hn : 1 ≤ vs.length := List.length_pos.mpr hne
    have hn1 : (0 : ℚ) ≤ (vs.length : ℚ) - 1 := by
      have : (1 : ℚ) ≤ (vs.length : ℚ) := by exact_mod_cast hn
      linarith
    have hr0 : 0 ≤ p * ((vs.length : ℚ) - 1) := mul_nonneg hp0 hn1
    by_cases hint : (⌊p * ((vs.length : ℚ) - 1)⌋₊ : ℚ) = p * ((vs.length : ℚ) - 1)
    · have hceil : ⌈p * ((vs.length : ℚ) - 1)⌉₊ = ⌊p * ((vs.length : ℚ) - 1)⌋₊ := by
        conv_lhs => rw [← hint]
        exact Nat.ceil_natCast _
      simp only [quantileSorted, hceil, hint, sub_self, zero_mul, add_zero]
    · have hlt : (⌊p * ((vs.length : ℚ) - 1)⌋₊ : ℚ) < p * ((vs.length : ℚ) - 1) :=
        lt_of_le_of_ne (Nat.floor_le hr0) hint
      have hceil : ⌈p * ((vs.length : ℚ) - 1)⌉₊ = ⌊p * ((vs.length : ℚ) - 1)⌋₊ + 1 := by
        rw [Nat.ceil_eq_iff (Nat.succ_ne_zero _)]
        refine ⟨by simpa using hlt, ?_⟩
        push_cast
        exact (Nat.lt_floor_add_one _).le
      have hrle : p * ((vs.length : ℚ) - 1) ≤ (vs.length : ℚ) - 1 := by nlinarith
      have hrne : p * ((vs.length : ℚ) - 1) ≠ (vs.length : ℚ) - 1 := by
        intro he
        apply hint
        have hcast : ((vs.length - 1 : ℕ) : ℚ) = (vs.length : ℚ) - 1 := by
          push_cast [hn]
          ring
        rw [he, ← hcast, Nat.floor_natCast]
      have hridx : ⌊p * ((vs.length : ℚ) - 1)⌋₊ < vs.length - 1 := by
        rw [Nat.floor_lt hr0, Nat.cast_sub hn, Nat.cast_one]
        exact lt_of_le_of_ne hrle hrne
      have hidx : ⌊p * ((vs.length : ℚ) - 1)⌋₊ + 1 < vs.length := by omega
      simp only [quantileSorted, hceil]
      rw [List.getD_eq_getElem _ _ hidx, List.getD_eq_getElem _ _ hidx]
  · have h32 : ⌊(3/2 : ℚ)⌋₊ = 1 := by
      rw [Nat.floor_eq_iff (by norm_num)]
      norm_num
    norm_num [quantileSorted, h32]

/-- Witness for C7: instantiating the interpolation law at the sorted
list `[1, 2, 3]` and `p = 1/4` (rank 1/2) gives 3/2. -/
theorem quantileSorted_closest_ranks_witness :
    quantileSorted [1, 2, 3] (1/4) = 3/2 := by
  have h := quantileSorted_closest_ranks.1 [1, 2, 3] (1/4)
    (by decide) (by decide) (by norm_num) (by norm_num)
  rw [h]
  have hf : ⌊(1/2 : ℚ)⌋₊ = 0 := Nat.floor_eq_zero.mpr (by norm_num)
  have hc : ⌈(1/2 : ℚ)⌉₊ = 1 := by
    rw [Nat.ceil_eq_iff one_ne_zero]
    norm_num
  norm_num [hf, hc]

/-- C8: on a view with exactly one record, all three quartiles of every
field equal that record's field value, and the sample standard deviation
is undefined (NaN, as pandas reports for ddof = 1 with a single value) —
in particular it is not zero. -/
theorem describe_single_record (records : List Record) (r : Record)
    (h : records = [r]) (f : IrisField) :
    (describeField records f).q25 = PFloat.val (fieldVal r f) ∧
    (describeField records f).q50 = PFloat.val (fieldVal r f) ∧
    (describeField records f).q75 = PFloat.val (fieldVal r f) ∧
    (describeField records f).stdSq = PFloat.NaN ∧
    (describeField records f).stdSq ≠ PFloat.val 0 := by
  subst h
  have hq : ∀ p : ℚ, quartile [r] f p = PFloat.val (fieldVal r f) := by
    intro p
    simp [quartile, quantileSorted, List.insertionSort]
  refine ⟨hq (1/4), hq (1/2), hq (3/4), rfl, ?_⟩
  intro hcontra
  simp [describeField, sampleStdSq] at hcontra

/-- Witness for C8 on a concrete one-record view. -/
theorem describe_single_record_witness :
    (describeField [recSetosa] IrisField.sepal_length).q50
        = PFloat.val (fieldVal recSetosa IrisField.sepal_length) ∧
    (describeField [recSetosa] IrisField.sepal_length).stdSq = PFloat.NaN :=
  ⟨(describe_single_record [recSetosa] recSetosa rfl IrisField.sepal_length).2.1,
   (describe_single_record [recSetosa] recSetosa rfl
      IrisField.sepal_length).2.2.2.1⟩

/-- The feature pairs the program accepts: the two sidebar selectboxes
(`src/app.py` lines 82–86) each independently range over
`readable_features`, and the choices are mapped through
`readable_to_original`.  Nothing ties the two choices together. -/
def acceptedFeaturePair (x y : String) : Prop :=
  ∃ a ∈ readableFeatures, ∃ b ∈ readableFeatures,
    x = readable_to_original a ∧ y = readable_to_original b

/-- C10 counterexample: the program accepts a feature pair whose two
members are the same field — selecting "Sepal Length (cm)" in both
selectboxes yields the pair (sepal_length, sepal_length), so the claimed
distinctness invariant does not hold. -/
theorem acceptedFeaturePair_equal_members :
    acceptedFeaturePair "sepal_length" "sepal_length" ∧
    ¬ ("sepal_length" : String) ≠ "sepal_length" := by
  refine ⟨⟨"Sepal Length (cm)", by decide, "Sepal Length (cm)", by decide,
    rfl, rfl⟩, fun hcontra => hcontra rfl⟩

/-- C10 amended: each member of an accepted feature pair is one of the
four measurement field identifiers, and the program's default pair
(readable features at indices 0 and 2, i.e. sepal_length and
petal_length) is distinct — but the two members are not required to be
distinct. -/
theorem acceptedFeaturePair_members_known :
    (∀ x y, acceptedFeaturePair x y →
      x ∈ featureKeys ∧ y ∈ featureKeys) ∧
    readable_to_original (readableFeatures.getD 0 "")
      ≠ readable_to_original (readableFeatures.getD 2 "") := by
  constructor
  · rintro x y ⟨a, ha, b, hb, rfl, rfl⟩
    have hmap : ∀ s ∈ readableFeatures, readable_to_original s ∈ featureKeys := by
      decide
    exact ⟨hmap a ha, hmap b hb⟩
  · decide

/-- Witness for the amended C10 at a concrete accepted pair. -/
theorem acceptedFeaturePair_members_known_witness :
    ("petal_width" : String) ∈ featureKeys ∧
    ("sepal_width" : String) ∈ featureKeys :=
  acceptedFeaturePair_members_known.1 "petal_width" "sepal_width"
    ⟨"Petal Width (cm)", by decide, "Sepal Width (cm)", by decide, rfl, rfl⟩
